import Mathlib

/-!
Shallow embedding of the `talkative` Go package (an Ollama REST API client).

The package has two streaming loops (`StreamResponse`, `StreamPlainResponse`,
in `streaming.go`) and four request dispatchers (`Client.Chat`,
`Client.PlainChat`, `Client.Completion`, `Client.PlainCompletion`) that
validate their arguments, POST a JSON body, inspect the HTTP status, and on
success launch a background goroutine that runs a streaming loop over the
response body and then writes one value into a completion channel.

Modelling choices:
* A Go string / byte sequence is modelled as `List Char`.
* The typed response body, as consumed by `json.NewDecoder(body).Decode`,
  is modelled as the list of outcomes of successive decode calls
  (`DecodeStep`): each call either yields a value or a non-EOF error; an
  exhausted list means the decoder reports `io.EOF`.
* The plain response body is modelled as its character content plus a
  terminal condition (`PlainBody`): after the content is drained, reads
  report either `io.EOF` (`terminal = none`) or an I/O error.
* The observable behaviour of a streaming invocation is its trace of
  actions (`Action`): callback invocations in order, the `body.Close()`
  call installed by `defer`, and the `chDone <- true` write performed by the
  goroutine after the streamer returns.
* A dispatcher produces a `DispatchOutcome`: the request it POSTed (if it
  got that far), whether a channel/background task was created, the
  synchronous error (if any), and the trace of the background goroutine.
* The HTTP transport is a capability: the dispatcher takes as argument a
  function from the built request to the POST outcome (transport error, or
  a response carrying a status code, a raw body for `io.ReadAll`, and a
  streaming body for the streamer).
-/

namespace Talkative

/-- `Role` from `talkative.go`: enum-like type for chat roles. -/
inductive Role where
  | USER
  | ASSISTANT
deriving DecidableEq, Repr

/-- `DEFAULT_MODEL` from `talkative.go`: model used when none is specified. -/
def DEFAULT_MODEL : String := "llama2"

/-- `ChatMessage` from `chat.go`: one message sent or received in the chat. -/
structure ChatMessage where
  role : Role
  content : String
deriving DecidableEq, Repr

/-- `ChatParams` from `chat.go`: optional advanced parameters of a chat
request. The Go `Options map[string]interface{}` is modelled as an
association list of string keys and values. -/
structure ChatParams where
  format : String
  options : List (String × String)
  template : String
  streamFlag : Option Bool
  keep_alive : String
deriving DecidableEq, Repr

/-- `ChatRequest` from `chat.go`: the request body POSTed to the chat
endpoint. The embedded `*ChatParams` pointer is an `Option`. -/
structure ChatRequest where
  model : String
  messages : List ChatMessage
  params : Option ChatParams
deriving DecidableEq, Repr

/-- `ChatMetrics` from `chat.go`. -/
structure ChatMetrics where
  total_duration : Int
  load_duration : Int
  prompt_eval_count : Int
  prompt_eval_duration : Int
  eval_count : Int
  eval_duration : Int
deriving DecidableEq, Repr

/-- `ChatResponse` from `chat.go`: one decoded chat turn. `time.Time` is
modelled as its string rendering. -/
structure ChatResponse where
  model : String
  message : ChatMessage
  created_at : String
  done : Bool
  metrics : ChatMetrics
deriving DecidableEq, Repr

/-- `CompletionMessage` from `completion.go`: prompt and images of a
completion request. -/
structure CompletionMessage where
  prompt : String
  images : List String
deriving DecidableEq, Repr

/-- `CompletionRequest` from `completion.go`: the request body POSTed to the
completion endpoint. -/
structure CompletionRequest where
  model : String
  prompt : String
  images : List String
deriving DecidableEq, Repr

/-- `CompletionMetrics` from `completion.go`. -/
structure CompletionMetrics where
  total_duration : Int
  load_duration : Int
  prompt_eval_count : Int
  prompt_eval_duration : Int
  eval_count : Int
  eval_duration : Int
  context : List Int
deriving DecidableEq, Repr

/-- `CompletionResponse` from `completion.go`: one decoded completion turn. -/
structure CompletionResponse where
  model : String
  response : String
  created_at : String
  done : Bool
  metrics : CompletionMetrics
deriving DecidableEq, Repr

/-- The package's error values from `talkative.go` (`ErrCallback`,
`ErrMessage`, `ErrInvoke`, `ErrEncoding`, `ErrDecoding`, `ErrBadRequest`),
plus the case of returning the transport's own error unchanged
(`return nil, err` after `Post`). `ErrDecoding` and `ErrEncoding` carry the
wrapped underlying cause (`fmt.Errorf("%w: %v", ...)`); `ErrBadRequest`
carries the response body read by `io.ReadAll` (`fmt.Errorf("%w\n%v", ...)`). -/
inductive TalkError where
  | ErrUrl
  | ErrCallback
  | ErrMessage
  | ErrInvoke
  | ErrEncoding (cause : String)
  | ErrDecoding (cause : String)
  | ErrBadRequest (respBody : List Char)
  | transportErr (msg : String)
deriving DecidableEq, Repr

/-- Errors returned by reads on the plain body, as seen by
`StreamPlainResponse`: `io.EOF` or some other I/O error. -/
inductive GoError where
  | eof
  | ioErr (msg : String)
deriving DecidableEq, Repr

/-- One outcome of a call to `json.NewDecoder(body).Decode(&response)` on
the typed response body: a decoded value, or a non-EOF error (malformed
JSON, or an I/O failure mid-read). The end of the list of steps is the
point where `Decode` reports `io.EOF`. -/
inductive DecodeStep (T : Type) where
  | value (v : T)
  | failure (cause : String)
deriving DecidableEq, Repr

/-- One observable action of a streaming invocation: a callback invocation
carrying its payload, the `body.Close()` call, or the `chDone <- true`
completion-signal write. -/
inductive Action (E : Type) where
  | callback (payload : E)
  | close
  | signalDone
deriving DecidableEq, Repr

/-- Payload handed to the typed callback: `(*T, error)`. -/
abbrev TypedPayload (T : Type) : Type := Option T × Option TalkError

/-- Payload handed to the plain callback: `(string, error)`. -/
abbrev PlainPayload : Type := List Char × Option GoError

/-- Whether an action is a callback invocation. -/
def Action.isCallback {E : Type} : Action E → Bool
  | .callback _ => true
  | _ => false

/-- Whether an action is the `body.Close()` call. -/
def Action.isClose {E : Type} : Action E → Bool
  | .close => true
  | _ => false

/-- Whether an action is the completion-signal write. -/
def Action.isSignal {E : Type} : Action E → Bool
  | .signalDone => true
  | _ => false

/-- Number of `body.Close()` calls in a trace. -/
def closeCount {E : Type} (tr : List (Action E)) : Nat :=
  tr.countP fun a => a.isClose

/-- Number of completion-signal writes in a trace. -/
def signalCount {E : Type} (tr : List (Action E)) : Nat :=
  tr.countP fun a => a.isSignal

/-- The loop of `StreamResponse` (`streaming.go`): repeatedly decode the
next JSON value; on `io.EOF` return; on any other decode error invoke the
callback once with `(nil, ErrDecoding wrapping the cause)` and return; on
success invoke the callback with the value and nil error and continue. -/
def streamResponseLoop {T : Type} : List (DecodeStep T) → List (Action (TypedPayload T))
  | [] => []
  | .failure cause :: _ => [.callback (none, some (.ErrDecoding cause))]
  | .value v :: rest => .callback (some v, none) :: streamResponseLoop rest

/-- `StreamResponse` (`streaming.go`): runs the decode loop over the body;
`defer body.Close()` closes the body exactly when the function returns,
whichever exit path was taken. -/
def StreamResponse {T : Type} (body : List (DecodeStep T)) : List (Action (TypedPayload T)) :=
  streamResponseLoop body ++ [.close]

/-- The plain response body: its character content followed by a terminal
condition — `none` means reads past the content report `io.EOF`; `some m`
means they report the I/O error `m`. -/
structure PlainBody where
  content : List Char
  terminal : Option String
deriving DecidableEq, Repr

/-- The loop of `StreamPlainResponse` (`streaming.go`), with
`buff.ReadString('\n')` inlined: `acc` is the data the current `ReadString`
call has accumulated so far. When a newline is reached, `ReadString`
returns `(acc ++ "\n", nil)` and the code invokes the callback with the
line and continues. When the content is exhausted, `ReadString` returns
`(acc, io.EOF)` (or the pending read error): on `io.EOF` the code returns,
discarding `acc`; on any other error it invokes the callback once with
`("", err)` and returns. -/
def streamPlainLoop (acc : List Char) :
    List Char → Option String → List (Action PlainPayload)
  | [], none => []
  | [], some m => [.callback ([], some (.ioErr m))]
  | c :: cs, terminal =>
    if c = '\n' then
      .callback (acc ++ [c], none) :: streamPlainLoop [] cs terminal
    else
      streamPlainLoop (acc ++ [c]) cs terminal

/-- `StreamPlainResponse` (`streaming.go`): runs the line-reading loop over
the body; `defer body.Close()` closes the body exactly when the function
returns, whichever exit path was taken. -/
def StreamPlainResponse (b : PlainBody) : List (Action PlainPayload) :=
  streamPlainLoop [] b.content b.terminal ++ [.close]

/-- The goroutine launched by `Chat` / `Completion`:
`StreamResponse(res.Body, cb); chDone <- true`. -/
def typedWorker {T : Type} (body : List (DecodeStep T)) : List (Action (TypedPayload T)) :=
  StreamResponse body ++ [.signalDone]

/-- The goroutine launched by `PlainChat` / `PlainCompletion`:
`StreamPlainResponse(res.Body, cb); chDone <- true`. -/
def plainWorker (b : PlainBody) : List (Action PlainPayload) :=
  StreamPlainResponse b ++ [.signalDone]

/-- The result of a successful `c.client.Post`: the HTTP status code, the
raw body as `io.ReadAll` would read it (used on the 400 path), and the body
as the streaming loop consumes it (used on the 200 path). `S` is
`List (DecodeStep T)` for the typed dispatchers and `PlainBody` for the
plain ones. -/
structure HttpResponse (S : Type) where
  statusCode : Nat
  rawBody : List Char
  respBody : S
deriving Repr

/-- The observable outcome of one dispatcher call: the request POSTed (if
the call got past validation), whether the completion channel was created
and the background task launched, the synchronously returned error (if
any), and the background goroutine's action trace (empty when no goroutine
was launched). A nil returned channel corresponds to `chCreated = false`. -/
structure DispatchOutcome (R E : Type) where
  requestSent : Option R
  chCreated : Bool
  syncError : Option TalkError
  trace : List (Action E)
deriving Repr

/-- `Client.Chat` (`chat.go`): validate the callback and messages, default
the model, build the `ChatRequest`, POST it, map a non-200 status to a
synchronous error (400 to `ErrBadRequest` carrying the body, anything else
to `ErrInvoke`), and on 200 create the channel and launch the goroutine.
`cbNil` states whether the caller passed a nil callback; `post` is the
transport capability. -/
def Chat (model : String) (cbNil : Bool) (params : Option ChatParams)
    (msgs : List ChatMessage)
    (post : ChatRequest → Except String (HttpResponse (List (DecodeStep ChatResponse)))) :
    DispatchOutcome ChatRequest (TypedPayload ChatResponse) :=
  if cbNil then ⟨none, false, some .ErrCallback, []⟩
  else if msgs.length = 0 then ⟨none, false, some .ErrMessage, []⟩
  else
    let model := if model = "" then DEFAULT_MODEL else model
    let request : ChatRequest := ⟨model, msgs, params⟩
    match post request with
    | .error m => ⟨some request, false, some (.transportErr m), []⟩
    | .ok res =>
      if res.statusCode ≠ 200 then
        if res.statusCode = 400 then
          ⟨some request, false, some (.ErrBadRequest res.rawBody), []⟩
        else
          ⟨some request, false, some .ErrInvoke, []⟩
      else
        ⟨some request, true, none, typedWorker res.respBody⟩

/-- `Client.PlainChat` (`chat.go`): identical to `Chat` except the goroutine
runs `StreamPlainResponse`. -/
def PlainChat (model : String) (cbNil : Bool) (params : Option ChatParams)
    (msgs : List ChatMessage)
    (post : ChatRequest → Except String (HttpResponse PlainBody)) :
    DispatchOutcome ChatRequest PlainPayload :=
  if cbNil then ⟨none, false, some .ErrCallback, []⟩
  else if msgs.length = 0 then ⟨none, false, some .ErrMessage, []⟩
  else
    let model := if model = "" then DEFAULT_MODEL else model
    let request : ChatRequest := ⟨model, msgs, params⟩
    match post request with
    | .error m => ⟨some request, false, some (.transportErr m), []⟩
    | .ok res =>
      if res.statusCode ≠ 200 then
        if res.statusCode = 400 then
          ⟨some request, false, some (.ErrBadRequest res.rawBody), []⟩
        else
          ⟨some request, false, some .ErrInvoke, []⟩
      else
        ⟨some request, true, none, plainWorker res.respBody⟩

/-- `Client.Completion` (`completion.go`): validate the callback and the
(possibly nil) message, default the model, build the `CompletionRequest`,
POST it, map a non-200 status to a synchronous error, and on 200 create the
channel and launch the goroutine. -/
def Completion (model : String) (cbNil : Bool) (msg : Option CompletionMessage)
    (post : CompletionRequest → Except String (HttpResponse (List (DecodeStep CompletionResponse)))) :
    DispatchOutcome CompletionRequest (TypedPayload CompletionResponse) :=
  if cbNil then ⟨none, false, some .ErrCallback, []⟩
  else
    match msg with
    | none => ⟨none, false, some .ErrMessage, []⟩
    | some m =>
      let model := if model = "" then DEFAULT_MODEL else model
      let request : CompletionRequest := ⟨model, m.prompt, m.images⟩
      match post request with
      | .error e => ⟨some request, false, some (.transportErr e), []⟩
      | .ok res =>
        if res.statusCode ≠ 200 then
          if res.statusCode = 400 then
            ⟨some request, false, some (.ErrBadRequest res.rawBody), []⟩
          else
            ⟨some request, false, some .ErrInvoke, []⟩
        else
          ⟨some request, true, none, typedWorker res.respBody⟩

/-- `Client.PlainCompletion` (`completion.go`): identical to `Completion`
except the goroutine runs `StreamPlainResponse`. -/
def PlainCompletion (model : String) (cbNil : Bool) (msg : Option CompletionMessage)
    (post : CompletionRequest → Except String (HttpResponse PlainBody)) :
    DispatchOutcome CompletionRequest PlainPayload :=
  if cbNil then ⟨none, false, some .ErrCallback, []⟩
  else
    match msg with
    | none => ⟨none, false, some .ErrMessage, []⟩
    | some m =>
      let model := if model = "" then DEFAULT_MODEL else model
      let request : CompletionRequest := ⟨model, m.prompt, m.images⟩
      match post request with
      | .error e => ⟨some request, false, some (.transportErr e), []⟩
      | .ok res =>
        if res.statusCode ≠ 200 then
          if res.statusCode = 400 then
            ⟨some request, false, some (.ErrBadRequest res.rawBody), []⟩
          else
            ⟨some request, false, some .ErrInvoke, []⟩
        else
          ⟨some request, true, none, plainWorker res.respBody⟩

example :
    streamPlainLoop [] ['a', '\n', 'b', '\n'] none =
      [.callback (['a', '\n'], none), .callback (['b', '\n'], none)] := by
  decide

example :
    streamPlainLoop [] ['a', '\n', 'x'] none =
      [.callback (['a', '\n'], none)] := by
  decide

example :
    StreamResponse [DecodeStep.value (3 : Nat), .failure "bad", .value 4] =
      [.callback (some 3, none),
       .callback (none, some (.ErrDecoding "bad")), .close] := by
  decide

/-! ### Helper lemmas about the streaming loops -/

/-- On a body whose decode steps are all successful values, the typed loop
invokes the callback once per value, in order, with no error. -/
theorem streamResponseLoop_values {T : Type} (vs : List T) :
    streamResponseLoop (vs.map DecodeStep.value) =
      vs.map (fun v => Action.callback (some v, none)) := by
  induction vs with
  | nil => rfl
  | cons v rest ih => simp [streamResponseLoop, ih]

/-- On a body whose decode steps are some values followed by a failure, the
typed loop invokes the callback once per leading value and then exactly once
with the classified decoding error, ignoring everything after the failure. -/
theorem streamResponseLoop_failure {T : Type} (vs : List T) (cause : String)
    (rest : List (DecodeStep T)) :
    streamResponseLoop (vs.map DecodeStep.value ++ DecodeStep.failure cause :: rest) =
      vs.map (fun v => Action.callback (some v, none)) ++
        [Action.callback (none, some (TalkError.ErrDecoding cause))] := by
  induction vs with
  | nil => rfl
  | cons v vrest ih => simp [streamResponseLoop, ih]

/-- Every action the typed loop emits is a callback invocation. -/
theorem streamResponseLoop_callbacks {T : Type} (body : List (DecodeStep T)) :
    ∀ a ∈ streamResponseLoop body, a.isCallback = true := by
  induction body with
  | nil => simp [streamResponseLoop]
  | cons s rest ih =>
    cases s with
    | value v =>
      intro a ha
      rcases List.mem_cons.mp ha with h | h
      · subst h; rfl
      · exact ih a h
    | failure cause =>
      intro a ha
      rcases List.mem_cons.mp ha with h | h
      · subst h; rfl
      · simp at h

/-- Every action the plain loop emits is a callback invocation. -/
theorem streamPlainLoop_callbacks (content : List Char) :
    ∀ (acc : List Char) (terminal : Option String),
      ∀ a ∈ streamPlainLoop acc content terminal, a.isCallback = true := by
  induction content with
  | nil =>
    intro acc terminal a ha
    cases terminal with
    | none => simp [streamPlainLoop] at ha
    | some m =>
      simp only [streamPlainLoop, List.mem_singleton] at ha
      subst ha; rfl
  | cons c cs ih =>
    intro acc terminal a ha
    by_cases hc : c = '\n'
    · simp only [streamPlainLoop, if_pos hc] at ha
      rcases List.mem_cons.mp ha with h | h
      · subst h; rfl
      · exact ih [] terminal a h
    · simp only [streamPlainLoop, if_neg hc] at ha
      exact ih (acc ++ [c]) terminal a ha

/-- Reading one newline-terminated line: the plain loop delivers the
accumulated data plus the line, newline included, and continues with an
empty accumulator. -/
theorem streamPlainLoop_line (l : List Char) (hl : '\n' ∉ l) (acc rest : List Char)
    (terminal : Option String) :
    streamPlainLoop acc (l ++ '\n' :: rest) terminal =
      Action.callback (acc ++ l ++ ['\n'], none) :: streamPlainLoop [] rest terminal := by
  induction l generalizing acc with
  | nil => simp [streamPlainLoop]
  | cons c l' ih =>
    have hc : c ≠ '\n' := fun h => hl (h ▸ List.mem_cons_self c l')
    have hl' : '\n' ∉ l' := fun h => hl (List.mem_cons_of_mem c h)
    have step : streamPlainLoop acc ((c :: l') ++ '\n' :: rest) terminal =
        streamPlainLoop (acc ++ [c]) (l' ++ '\n' :: rest) terminal := by
      simp [streamPlainLoop, hc]
    rw [step, ih hl' (acc ++ [c])]
    simp

/-- At clean end-of-stream the plain loop discards any newline-free
residual content without invoking the callback. -/
theorem streamPlainLoop_eof_residue (tail : List Char) (ht : '\n' ∉ tail)
    (acc : List Char) :
    streamPlainLoop acc tail none = [] := by
  induction tail generalizing acc with
  | nil => rfl
  | cons c cs ih =>
    have hc : c ≠ '\n' := fun h => ht (h ▸ List.mem_cons_self c cs)
    have hcs : '\n' ∉ cs := fun h => ht (List.mem_cons_of_mem c h)
    simp only [streamPlainLoop, if_neg hc]
    exact ih hcs (acc ++ [c])

/-- On a pending read error, once the remaining content holds no newline,
the plain loop invokes the callback exactly once with the empty string and
the error. -/
theorem streamPlainLoop_error_residue (tail : List Char) (ht : '\n' ∉ tail)
    (m : String) (acc : List Char) :
    streamPlainLoop acc tail (some m) =
      [Action.callback ([], some (GoError.ioErr m))] := by
  induction tail generalizing acc with
  | nil => rfl
  | cons c cs ih =>
    have hc : c ≠ '\n' := fun h => ht (h ▸ List.mem_cons_self c cs)
    have hcs : '\n' ∉ cs := fun h => ht (List.mem_cons_of_mem c h)
    simp only [streamPlainLoop, if_neg hc]
    exact ih hcs (acc ++ [c])

/-- The plain loop on a sequence of newline-terminated lines followed by
arbitrary leftover content: each line is delivered in order, newline
included, and the loop continues on the leftover. -/
theorem streamPlainLoop_lines (ls : List (List Char)) (hls : ∀ l ∈ ls, '\n' ∉ l)
    (tail : List Char) (terminal : Option String) :
    streamPlainLoop [] ((ls.map (fun l => l ++ ['\n'])).flatten ++ tail) terminal =
      ls.map (fun l => Action.callback (l ++ ['\n'], none)) ++
        streamPlainLoop [] tail terminal := by
  induction ls with
  | nil => simp
  | cons l ls' ih =>
    have hl : '\n' ∉ l := hls l (List.mem_cons_self l ls')
    have hls' : ∀ x ∈ ls', '\n' ∉ x := fun x hx => hls x (List.mem_cons_of_mem l hx)
    have hshape : (List.map (fun x => x ++ ['\n']) (l :: ls')).flatten ++ tail =
        l ++ '\n' :: ((List.map (fun x => x ++ ['\n']) ls').flatten ++ tail) := by
      simp
    simp only [hshape]
    rw [streamPlainLoop_line l hl, ih hls']
    simp

/-- A prefix of callback-only actions contributes nothing to the close
count. -/
theorem closeCount_callbacks_append {E : Type} (evs suffix : List (Action E))
    (h : ∀ a ∈ evs, a.isCallback = true) :
    closeCount (evs ++ suffix) = closeCount suffix := by
  unfold closeCount
  rw [List.countP_append]
  have hz : List.countP (fun a => a.isClose) evs = 0 := by
    rw [List.countP_eq_zero]
    intro a ha
    have := h a ha
    cases a <;> simp_all [Action.isCallback, Action.isClose]
  omega

/-- In every branch of `Chat` past validation, the outcome records the built
request, with the model defaulted when empty. -/
theorem Chat_requestSent (model : String) (params : Option ChatParams)
    (m : ChatMessage) (ms : List ChatMessage)
    (post : ChatRequest → Except String (HttpResponse (List (DecodeStep ChatResponse)))) :
    (Chat model false params (m :: ms) post).requestSent =
      some ⟨if model = "" then DEFAULT_MODEL else model, m :: ms, params⟩ := by
  simp only [Chat]
  rcases post ⟨if model = "" then DEFAULT_MODEL else model, m :: ms, params⟩ with e | res
  · simp
  · by_cases h2 : res.statusCode = 200
    · simp [h2]
    · by_cases h4 : res.statusCode = 400 <;> simp [h2, h4]

/-- In every branch of `PlainChat` past validation, the outcome records the
built request, with the model defaulted when empty. -/
theorem PlainChat_requestSent (model : String) (params : Option ChatParams)
    (m : ChatMessage) (ms : List ChatMessage)
    (post : ChatRequest → Except String (HttpResponse PlainBody)) :
    (PlainChat model false params (m :: ms) post).requestSent =
      some ⟨if model = "" then DEFAULT_MODEL else model, m :: ms, params⟩ := by
  simp only [PlainChat]
  rcases post ⟨if model = "" then DEFAULT_MODEL else model, m :: ms, params⟩ with e | res
  · simp
  · by_cases h2 : res.statusCode = 200
    · simp [h2]
    · by_cases h4 : res.statusCode = 400 <;> simp [h2, h4]

/-- In every branch of `Completion` past validation, the outcome records the
built request, with the model defaulted when empty. -/
theorem Completion_requestSent (model : String) (cm : CompletionMessage)
    (post : CompletionRequest → Except String (HttpResponse (List (DecodeStep CompletionResponse)))) :
    (Completion model false (some cm) post).requestSent =
      some ⟨if model = "" then DEFAULT_MODEL else model, cm.prompt, cm.images⟩ := by
  simp only [Completion]
  rcases post ⟨if model = "" then DEFAULT_MODEL else model, cm.prompt, cm.images⟩ with e | res
  · simp
  · by_cases h2 : res.statusCode = 200
    · simp [h2]
    · by_cases h4 : res.statusCode = 400 <;> simp [h2, h4]

/-- In every branch of `PlainCompletion` past validation, the outcome
records the built request, with the model defaulted when empty. -/
theorem PlainCompletion_requestSent (model : String) (cm : CompletionMessage)
    (post : CompletionRequest → Except String (HttpResponse PlainBody)) :
    (PlainCompletion model false (some cm) post).requestSent =
      some ⟨if model = "" then DEFAULT_MODEL else model, cm.prompt, cm.images⟩ := by
  simp only [PlainCompletion]
  rcases post ⟨if model = "" then DEFAULT_MODEL else model, cm.prompt, cm.images⟩ with e | res
  · simp
  · by_cases h2 : res.statusCode = 200
    · simp [h2]
    · by_cases h4 : res.statusCode = 400 <;> simp [h2, h4]

/-! ### Claim theorems -/

/-- Claim C1: for every well-formed NDJSON input consisting of N complete
JSON objects (including N = 0, the empty stream), `StreamResponse` invokes
the callback exactly N times, each time with a successfully decoded value
and a nil error, in input order, with zero error invocations; the body is
then closed and the completion signal is sent exactly once. -/
theorem C1_wellformed_stream {T : Type} (vs : List T) :
    typedWorker (vs.map DecodeStep.value) =
      vs.map (fun v => Action.callback (some v, none)) ++
        [Action.close, Action.signalDone] := by
  unfold typedWorker StreamResponse
  rw [streamResponseLoop_values]
  simp

/-- Claim C2: whenever `StreamResponse` hits a decode error other than
clean end-of-stream, it invokes the callback exactly once with a null value
and an `ErrDecoding` error wrapping the underlying cause, then terminates
the loop and closes the stream; no callback invocation occurs after that
one error report, whatever follows in the body. -/
theorem C2_decode_error_terminal {T : Type} (vs : List T) (cause : String)
    (rest : List (DecodeStep T)) :
    StreamResponse (vs.map DecodeStep.value ++ DecodeStep.failure cause :: rest) =
      vs.map (fun v => Action.callback (some v, none)) ++
        [Action.callback (none, some (TalkError.ErrDecoding cause)), Action.close] := by
  unfold StreamResponse
  rw [streamResponseLoop_failure]
  simp

/-- Claim C3: for every streaming invocation dispatched by `Chat`,
`PlainChat`, `Completion`, or `PlainCompletion` (that is, every call that
passes validation and receives status 200), the background task's trace
consists of callback invocations only, followed by the body close and then
exactly one completion-signal write as its final action: no callback
invocation happens after the signal. -/
theorem C3_one_signal_after_callbacks :
    (∀ (model : String) (params : Option ChatParams) (m : ChatMessage)
       (ms : List ChatMessage) (rb : List Char)
       (stream : List (DecodeStep ChatResponse)),
       (Chat model false params (m :: ms) (fun _ => .ok ⟨200, rb, stream⟩)).chCreated = true ∧
       ∃ evs, (Chat model false params (m :: ms) (fun _ => .ok ⟨200, rb, stream⟩)).trace =
           evs ++ [Action.close, Action.signalDone] ∧
         ∀ a ∈ evs, a.isCallback = true) ∧
    (∀ (model : String) (params : Option ChatParams) (m : ChatMessage)
       (ms : List ChatMessage) (rb : List Char) (pb : PlainBody),
       (PlainChat model false params (m :: ms) (fun _ => .ok ⟨200, rb, pb⟩)).chCreated = true ∧
       ∃ evs, (PlainChat model false params (m :: ms) (fun _ => .ok ⟨200, rb, pb⟩)).trace =
           evs ++ [Action.close, Action.signalDone] ∧
         ∀ a ∈ evs, a.isCallback = true) ∧
    (∀ (model : String) (cm : CompletionMessage) (rb : List Char)
       (stream : List (DecodeStep CompletionResponse)),
       (Completion model false (some cm) (fun _ => .ok ⟨200, rb, stream⟩)).chCreated = true ∧
       ∃ evs, (Completion model false (some cm) (fun _ => .ok ⟨200, rb, stream⟩)).trace =
           evs ++ [Action.close, Action.signalDone] ∧
         ∀ a ∈ evs, a.isCallback = true) ∧
    (∀ (model : String) (cm : CompletionMessage) (rb : List Char) (pb : PlainBody),
       (PlainCompletion model false (some cm) (fun _ => .ok ⟨200, rb, pb⟩)).chCreated = true ∧
       ∃ evs, (PlainCompletion model false (some cm) (fun _ => .ok ⟨200, rb, pb⟩)).trace =
           evs ++ [Action.close, Action.signalDone] ∧
         ∀ a ∈ evs, a.isCallback = true) := by
  refine ⟨?_, ?_, ?_, ?_⟩
  · intro model params m ms rb stream
    refine ⟨rfl, streamResponseLoop stream, ?_, streamResponseLoop_callbacks stream⟩
    show typedWorker stream = _
    simp [typedWorker, StreamResponse]
  · intro model params m ms rb pb
    refine ⟨rfl, streamPlainLoop [] pb.content pb.terminal, ?_,
      streamPlainLoop_callbacks pb.content [] pb.terminal⟩
    show plainWorker pb = _
    simp [plainWorker, StreamPlainResponse]
  · intro model cm rb stream
    refine ⟨rfl, streamResponseLoop stream, ?_, streamResponseLoop_callbacks stream⟩
    show typedWorker stream = _
    simp [typedWorker, StreamResponse]
  · intro model cm rb pb
    refine ⟨rfl, streamPlainLoop [] pb.content pb.terminal, ?_,
      streamPlainLoop_callbacks pb.content [] pb.terminal⟩
    show plainWorker pb = _
    simp [plainWorker, StreamPlainResponse]

/-- Claim C4: in both `StreamResponse` and `StreamPlainResponse`, the byte
stream's close operation appears exactly once in the trace, for every
possible body (clean end-of-stream, decode error, or read error). -/
theorem C4_close_exactly_once {T : Type} (body : List (DecodeStep T)) (b : PlainBody) :
    closeCount (StreamResponse body) = 1 ∧ closeCount (StreamPlainResponse b) = 1 := by
  constructor
  · unfold StreamResponse
    rw [closeCount_callbacks_append _ _ (streamResponseLoop_callbacks body)]
    rfl
  · unfold StreamPlainResponse
    rw [closeCount_callbacks_append _ _ (streamPlainLoop_callbacks b.content [] b.terminal)]
    rfl

/-- Claim C5: on a body consisting of newline-terminated lines (such as
`"a\nb\nc\n"`), the plain streaming worker invokes the callback once per
line, in order, each line delivered verbatim including its trailing newline
and with a nil error, then closes the body and sends the completion
signal. -/
theorem C5_plain_lines_delivered (ls : List (List Char))
    (h : ∀ l ∈ ls, '\n' ∉ l) :
    plainWorker ⟨(ls.map (fun l => l ++ ['\n'])).flatten, none⟩ =
      ls.map (fun l => Action.callback (l ++ ['\n'], none)) ++
        [Action.close, Action.signalDone] := by
  have hmain := streamPlainLoop_lines ls h [] none
  rw [List.append_nil] at hmain
  unfold plainWorker StreamPlainResponse
  simp [hmain, streamPlainLoop]

/-- Witness for C5 at the spec's concrete input `"a\nb\nc\n"`. -/
theorem C5_witness :
    (∀ l ∈ [['a'], ['b'], ['c']], '\n' ∉ l) ∧
      plainWorker ⟨['a', '\n', 'b', '\n', 'c', '\n'], none⟩ =
        [Action.callback (['a', '\n'], none), Action.callback (['b', '\n'], none),
         Action.callback (['c', '\n'], none), Action.close, Action.signalDone] :=
  ⟨by decide, C5_plain_lines_delivered [['a'], ['b'], ['c']] (by decide)⟩

/-- Claim C6: when `StreamPlainResponse` encounters a read error other than
end-of-stream, it invokes the callback exactly once with the empty string
and that error, after the successfully read lines, then closes the stream
and performs no further callback invocations. -/
theorem C6_plain_read_error (ls : List (List Char)) (tail : List Char) (m : String)
    (hls : ∀ l ∈ ls, '\n' ∉ l) (ht : '\n' ∉ tail) :
    StreamPlainResponse ⟨(ls.map (fun l => l ++ ['\n'])).flatten ++ tail, some m⟩ =
      ls.map (fun l => Action.callback (l ++ ['\n'], none)) ++
        [Action.callback ([], some (GoError.ioErr m)), Action.close] := by
  have hmain := streamPlainLoop_lines ls hls tail (some m)
  rw [streamPlainLoop_error_residue tail ht m []] at hmain
  unfold StreamPlainResponse
  simp [hmain]

/-- Witness for C6: one good line, then a read error. -/
theorem C6_witness :
    ((∀ l ∈ [['a']], '\n' ∉ l) ∧ '\n' ∉ (['x'] : List Char)) ∧
      StreamPlainResponse ⟨['a', '\n', 'x'], some "boom"⟩ =
        [Action.callback (['a', '\n'], none),
         Action.callback ([], some (GoError.ioErr "boom")), Action.close] :=
  ⟨⟨by decide, by decide⟩,
    C6_plain_read_error [['a']] ['x'] "boom" (by decide) (by decide)⟩

/-- Claim C7: for every request whose POST succeeds but returns a non-200
status, each of the four dispatchers returns synchronously: status 400
yields `ErrBadRequest` carrying the response body, and any other non-200
status yields `ErrInvoke`; in every such case no channel is created and no
background trace exists. -/
theorem C7_non_success_status :
    (∀ (model : String) (params : Option ChatParams) (m : ChatMessage)
       (ms : List ChatMessage) (n : ℕ) (rb : List Char)
       (stream : List (DecodeStep ChatResponse)), n ≠ 200 →
       Chat model false params (m :: ms) (fun _ => .ok ⟨n, rb, stream⟩) =
         ⟨some ⟨if model = "" then DEFAULT_MODEL else model, m :: ms, params⟩, false,
          some (if n = 400 then .ErrBadRequest rb else .ErrInvoke), []⟩) ∧
    (∀ (model : String) (params : Option ChatParams) (m : ChatMessage)
       (ms : List ChatMessage) (n : ℕ) (rb : List Char) (pb : PlainBody), n ≠ 200 →
       PlainChat model false params (m :: ms) (fun _ => .ok ⟨n, rb, pb⟩) =
         ⟨some ⟨if model = "" then DEFAULT_MODEL else model, m :: ms, params⟩, false,
          some (if n = 400 then .ErrBadRequest rb else .ErrInvoke), []⟩) ∧
    (∀ (model : String) (cm : CompletionMessage) (n : ℕ) (rb : List Char)
       (stream : List (DecodeStep CompletionResponse)), n ≠ 200 →
       Completion model false (some cm) (fun _ => .ok ⟨n, rb, stream⟩) =
         ⟨some ⟨if model = "" then DEFAULT_MODEL else model, cm.prompt, cm.images⟩, false,
          some (if n = 400 then .ErrBadRequest rb else .ErrInvoke), []⟩) ∧
    (∀ (model : String) (cm : CompletionMessage) (n : ℕ) (rb : List Char)
       (pb : PlainBody), n ≠ 200 →
       PlainCompletion model false (some cm) (fun _ => .ok ⟨n, rb, pb⟩) =
         ⟨some ⟨if model = "" then DEFAULT_MODEL else model, cm.prompt, cm.images⟩, false,
          some (if n = 400 then .ErrBadRequest rb else .ErrInvoke), []⟩) := by
  refine ⟨?_, ?_, ?_, ?_⟩
  · intro model params m ms n rb stream hn
    by_cases h4 : n = 400
    · subst h4; simp [Chat]
    · simp [Chat, hn, h4]
  · intro model params m ms n rb pb hn
    by_cases h4 : n = 400
    · subst h4; simp [PlainChat]
    · simp [PlainChat, hn, h4]
  · intro model cm n rb stream hn
    by_cases h4 : n = 400
    · subst h4; simp [Completion]
    · simp [Completion, hn, h4]
  · intro model cm n rb pb hn
    by_cases h4 : n = 400
    · subst h4; simp [PlainCompletion]
    · simp [PlainCompletion, hn, h4]

/-- Witness for C7: a 404 is mapped to `ErrInvoke` by all four dispatchers,
and a 400 is mapped to `ErrBadRequest` carrying the body by `Chat`. -/
theorem C7_witness :
    ((404 : ℕ) ≠ 200 ∧
      Chat "mm" false none [⟨Role.USER, "hi"⟩] (fun _ => .ok ⟨404, ['e'], []⟩) =
        ⟨some ⟨"mm", [⟨Role.USER, "hi"⟩], none⟩, false, some TalkError.ErrInvoke, []⟩ ∧
      PlainChat "mm" false none [⟨Role.USER, "hi"⟩] (fun _ => .ok ⟨404, ['e'], ⟨[], none⟩⟩) =
        ⟨some ⟨"mm", [⟨Role.USER, "hi"⟩], none⟩, false, some TalkError.ErrInvoke, []⟩ ∧
      Completion "mm" false (some ⟨"hi", []⟩) (fun _ => .ok ⟨404, ['e'], []⟩) =
        ⟨some ⟨"mm", "hi", []⟩, false, some TalkError.ErrInvoke, []⟩ ∧
      PlainCompletion "mm" false (some ⟨"hi", []⟩) (fun _ => .ok ⟨404, ['e'], ⟨[], none⟩⟩) =
        ⟨some ⟨"mm", "hi", []⟩, false, some TalkError.ErrInvoke, []⟩) ∧
    ((400 : ℕ) ≠ 200 ∧
      Chat "mm" false none [⟨Role.USER, "hi"⟩] (fun _ => .ok ⟨400, ['e'], []⟩) =
        ⟨some ⟨"mm", [⟨Role.USER, "hi"⟩], none⟩, false,
         some (TalkError.ErrBadRequest ['e']), []⟩) :=
  ⟨⟨by decide,
    C7_non_success_status.1 "mm" none ⟨Role.USER, "hi"⟩ [] 404 ['e'] [] (by decide),
    C7_non_success_status.2.1 "mm" none ⟨Role.USER, "hi"⟩ [] 404 ['e'] ⟨[], none⟩ (by decide),
    C7_non_success_status.2.2.1 "mm" ⟨"hi", []⟩ 404 ['e'] [] (by decide),
    C7_non_success_status.2.2.2 "mm" ⟨"hi", []⟩ 404 ['e'] ⟨[], none⟩ (by decide)⟩,
   ⟨by decide,
    C7_non_success_status.1 "mm" none ⟨Role.USER, "hi"⟩ [] 400 ['e'] [] (by decide)⟩⟩

/-- Claim C8: a nil callback, or an empty/missing message payload, makes
each of the four dispatchers return a nil channel and the synchronous error
(`ErrCallback` resp. `ErrMessage`) before any HTTP request is sent, with no
background task or completion signal created. -/
theorem C8_validation_synchronous (model : String) (params : Option ChatParams)
    (msgs : List ChatMessage) (msg : Option CompletionMessage)
    (postC : ChatRequest → Except String (HttpResponse (List (DecodeStep ChatResponse))))
    (postPC : ChatRequest → Except String (HttpResponse PlainBody))
    (postK : CompletionRequest → Except String (HttpResponse (List (DecodeStep CompletionResponse))))
    (postPK : CompletionRequest → Except String (HttpResponse PlainBody)) :
    Chat model true params msgs postC = ⟨none, false, some .ErrCallback, []⟩ ∧
    Chat model false params [] postC = ⟨none, false, some .ErrMessage, []⟩ ∧
    PlainChat model true params msgs postPC = ⟨none, false, some .ErrCallback, []⟩ ∧
    PlainChat model false params [] postPC = ⟨none, false, some .ErrMessage, []⟩ ∧
    Completion model true msg postK = ⟨none, false, some .ErrCallback, []⟩ ∧
    Completion model false none postK = ⟨none, false, some .ErrMessage, []⟩ ∧
    PlainCompletion model true msg postPK = ⟨none, false, some .ErrCallback, []⟩ ∧
    PlainCompletion model false none postPK = ⟨none, false, some .ErrMessage, []⟩ :=
  ⟨rfl, rfl, rfl, rfl, rfl, rfl, rfl, rfl⟩

/-- Claim C9: if the body's content does not end with a newline,
`StreamPlainResponse` silently discards the final unterminated chunk: at
end-of-stream it returns (closing the body) without invoking the callback
for the data accumulated since the last newline, even when that data is
non-empty. -/
theorem C9_unterminated_tail_discarded (ls : List (List Char)) (tail : List Char)
    (hls : ∀ l ∈ ls, '\n' ∉ l) (ht : '\n' ∉ tail) :
    StreamPlainResponse ⟨(ls.map (fun l => l ++ ['\n'])).flatten ++ tail, none⟩ =
      ls.map (fun l => Action.callback (l ++ ['\n'], none)) ++ [Action.close] := by
  have hmain := streamPlainLoop_lines ls hls tail none
  rw [streamPlainLoop_eof_residue tail ht []] at hmain
  unfold StreamPlainResponse
  simp [hmain]

/-- Witness for C9: the non-empty unterminated chunk `"xy"` after `"a\n"`
is never delivered. -/
theorem C9_witness :
    ((∀ l ∈ [['a']], '\n' ∉ l) ∧ '\n' ∉ (['x', 'y'] : List Char)) ∧
      StreamPlainResponse ⟨['a', '\n', 'x', 'y'], none⟩ =
        [Action.callback (['a', '\n'], none), Action.close] :=
  ⟨⟨by decide, by decide⟩,
    C9_unterminated_tail_discarded [['a']] ['x', 'y'] (by decide) (by decide)⟩

/-- Claim C10: calling any of the four dispatchers with the empty model
string behaves identically to calling it with `DEFAULT_MODEL` (= "llama2")
explicitly, and when validation passes the built request's model field is
`DEFAULT_MODEL`. -/
theorem C10_empty_model_defaults :
    (∀ (cbNil : Bool) (params : Option ChatParams) (msgs : List ChatMessage)
       (post : ChatRequest → Except String (HttpResponse (List (DecodeStep ChatResponse)))),
       Chat "" cbNil params msgs post = Chat DEFAULT_MODEL cbNil params msgs post) ∧
    (∀ (params : Option ChatParams) (m : ChatMessage) (ms : List ChatMessage)
       (post : ChatRequest → Except String (HttpResponse (List (DecodeStep ChatResponse)))),
       (Chat "" false params (m :: ms) post).requestSent =
         some ⟨DEFAULT_MODEL, m :: ms, params⟩) ∧
    (∀ (cbNil : Bool) (params : Option ChatParams) (msgs : List ChatMessage)
       (post : ChatRequest → Except String (HttpResponse PlainBody)),
       PlainChat "" cbNil params msgs post = PlainChat DEFAULT_MODEL cbNil params msgs post) ∧
    (∀ (params : Option ChatParams) (m : ChatMessage) (ms : List ChatMessage)
       (post : ChatRequest → Except String (HttpResponse PlainBody)),
       (PlainChat "" false params (m :: ms) post).requestSent =
         some ⟨DEFAULT_MODEL, m :: ms, params⟩) ∧
    (∀ (cbNil : Bool) (msg : Option CompletionMessage)
       (post : CompletionRequest → Except String (HttpResponse (List (DecodeStep CompletionResponse)))),
       Completion "" cbNil msg post = Completion DEFAULT_MODEL cbNil msg post) ∧
    (∀ (cm : CompletionMessage)
       (post : CompletionRequest → Except String (HttpResponse (List (DecodeStep CompletionResponse)))),
       (Completion "" false (some cm) post).requestSent =
         some ⟨DEFAULT_MODEL, cm.prompt, cm.images⟩) ∧
    (∀ (cbNil : Bool) (msg : Option CompletionMessage)
       (post : CompletionRequest → Except String (HttpResponse PlainBody)),
       PlainCompletion "" cbNil msg post = PlainCompletion DEFAULT_MODEL cbNil msg post) ∧
    (∀ (cm : CompletionMessage)
       (post : CompletionRequest → Except String (HttpResponse PlainBody)),
       (PlainCompletion "" false (some cm) post).requestSent =
         some ⟨DEFAULT_MODEL, cm.prompt, cm.images⟩) := by
  refine ⟨fun _ _ _ _ => rfl, ?_, fun _ _ _ _ => rfl, ?_,
    fun _ _ _ => rfl, ?_, fun _ _ _ => rfl, ?_⟩
  · intro params m ms post
    simpa using Chat_requestSent "" params m ms post
  · intro params m ms post
    simpa using PlainChat_requestSent "" params m ms post
  · intro cm post
    simpa using Completion_requestSent "" cm post
  · intro cm post
    simpa using PlainCompletion_requestSent "" cm post

end Talkative
